import Mathlib

/-!
Shallow embedding of the `sqlanalytics` export tool
(`sqlanalytics/api/cmd/main.go` together with the table-column marshaller of
the `api` package) and proofs about its naming, deduplication, rendering and
serialization behaviour.

Conventions of the embedding:
* Go strings are Lean `String`s (sequences of runes / `Char`s).
* Raw JSON payloads (`json.RawMessage`) that the program stores undecoded and
  later decodes are modelled by their decoded form, restricted to the fields
  the program actually reads.
* `panic` / `log.Fatalf` failure paths are modelled with `Except RenderErr`.
* Go machine integers that are only ever formatted (`%d`) are modelled as
  `Int`; indices are `Nat`.
-/

/-! ### JSON values

`JVal` models the serialized value of one flat field of a
`VisualizationTableColumn` (all of its fields are strings, booleans, one
integer and one string slice, so a flat value type is exact).  `Json` models
arbitrary JSON trees, used for the free-form visualization option payloads and
widget parameter-mapping values. -/

inductive JVal where
  | str (s : String)
  | bool (b : Bool)
  | num (n : Int)
  /-- A Go `[]string`: `none` models a nil slice (marshals to `null`). -/
  | strArr (xs : Option (List String))
deriving DecidableEq

inductive Json where
  | null
  | bool (b : Bool)
  | num (n : Int)
  | str (s : String)
  | arr (elems : List Json)
  | obj (fields : List (String × Json))

/-! ### Character-level helpers

The tool's `canonicalize` uses the Go regexps `[()]` and `\W` (the complement
of `[0-9A-Za-z_]`, code points 48-57, 65-90, 97-122 and 95) and
`strings.ToLower`.  Every character surviving the `\W` replacement is an ASCII
word character, so on this pipeline Go's Unicode `ToLower` coincides with the
ASCII lowering modelled here. -/

/-- One of the two characters removed by the regexp `[()]` (codes 40 and 41). -/
def isParen (c : Char) : Bool :=
  decide (c.toNat = 40) || decide (c.toNat = 41)

/-- A word character in the sense of the Go regexp `\w`: `[0-9A-Za-z_]`. -/
def isWordChar (c : Char) : Bool :=
  decide (48 ≤ c.toNat ∧ c.toNat ≤ 57) || decide (65 ≤ c.toNat ∧ c.toNat ≤ 90)
    || decide (97 ≤ c.toNat ∧ c.toNat ≤ 122) || decide (c.toNat = 95)

/-- ASCII lower-casing of a single character (`A`-`Z` is code 65-90). -/
def asciiLowerChar (c : Char) : Char :=
  if 65 ≤ c.toNat ∧ c.toNat ≤ 90 then Char.ofNat (c.toNat + 32) else c

/-- Models `strings.ToLower` on the ASCII fragment relevant to this program. -/
def asciiLower (s : String) : String :=
  String.mk (s.data.map asciiLowerChar)

/-- The `canonicalize` function of `main.go`: drop `(` and `)`, replace every
non-word character by `_`, lower-case the result. -/
def canonicalize (str : String) : String :=
  String.mk
    (((str.data.filter (fun c => !isParen c)).map
        (fun c => if isWordChar c then c else '_')).map asciiLowerChar)

/-- A lower-case word character: lower-case letter, digit or underscore. -/
def isLowerWord (c : Char) : Bool :=
  decide (97 ≤ c.toNat ∧ c.toNat ≤ 122) || decide (48 ≤ c.toNat ∧ c.toNat ≤ 57)
    || decide (c.toNat = 95)

/-! ### Quoting and error-aware list traversal -/

/-- Models `strconv.Quote` on strings whose characters need no escaping beyond
backslash and double quote (the fragment exercised here). -/
def goQuote (s : String) : String :=
  "\"" ++ String.mk (s.data.flatMap
    (fun c => if c = '\\' || c = '"' then ['\\', c] else [c])) ++ "\""

/-- Rendering aborts either through a designed fatal path (`log.Fatalf` /
`panic` with a message) or through an out-of-range slice index. -/
inductive RenderErr where
  | indexOutOfRange
  | fatal (msg : String)
deriving DecidableEq

/-- Sequential traversal stopping at the first error, as a Go loop over a
slice whose body may `panic` does. -/
def mapME (f : α → Except RenderErr β) : List α → Except RenderErr (List β)
  | [] => .ok []
  | x :: xs =>
    match f x with
    | .error e => .error e
    | .ok y =>
      match mapME f xs with
      | .error e => .error e
      | .ok ys => .ok (y :: ys)

theorem mapME_ok_forall {f : α → Except RenderErr β} :
    ∀ {l : List α} {ys : List β}, mapME f l = .ok ys →
      ∀ x ∈ l, ∃ y, f x = .ok y ∧ y ∈ ys := by
  intro l
  induction l with
  | nil => intro ys _ x hx; cases hx
  | cons a t ih =>
    intro ys h x hx
    unfold mapME at h
    cases hfa : f a with
    | error e => rw [hfa] at h; cases h
    | ok y =>
      rw [hfa] at h
      cases hts : mapME f t with
      | error e => rw [hts] at h; cases h
      | ok ys' =>
        rw [hts] at h
        cases h
        rcases List.mem_cons.mp hx with rfl | hx
        · exact ⟨y, hfa, List.mem_cons_self _ _⟩
        · obtain ⟨y', hy', hmem⟩ := ih hts x hx
          exact ⟨y', hy', List.mem_cons_of_mem _ hmem⟩

theorem mapME_error_of_mem {f : α → Except RenderErr β} :
    ∀ {l : List α}, (∃ x ∈ l, ∃ e, f x = .error e) →
      ∃ e', mapME f l = .error e' := by
  intro l
  induction l with
  | nil => rintro ⟨x, hx, _⟩; cases hx
  | cons a t ih =>
    rintro ⟨x, hx, e, hfx⟩
    unfold mapME
    cases hfa : f a with
    | error e' => exact ⟨e', rfl⟩
    | ok y =>
      rcases List.mem_cons.mp hx with rfl | hx
      · rw [hfa] at hfx; cases hfx
      · obtain ⟨e', he'⟩ := ih ⟨x, hx, e, hfx⟩
        rw [he']
        exact ⟨e', rfl⟩

theorem mapME_error_kinds {f : α → Except RenderErr β}
    (hf : ∀ x e, f x = .error e → e ≠ .indexOutOfRange) :
    ∀ {l : List α} {e}, mapME f l = .error e → e ≠ .indexOutOfRange := by
  intro l
  induction l with
  | nil => intro e h; cases h
  | cons a t ih =>
    intro e h
    unfold mapME at h
    cases hfa : f a with
    | error e' => rw [hfa] at h; cases h; exact hf a _ hfa
    | ok y =>
      rw [hfa] at h
      cases hts : mapME f t with
      | error e' => rw [hts] at h; cases h; exact ih hts
      | ok ys => rw [hts] at h; cases h

/-! ### Object model (`api` package)

Mirrors the decoded shapes of the four entity kinds and their polymorphic
sub-variants, restricted to the fields `main.go` reads. -/

namespace api

/-- `api.VisualizationTableColumn` (file `part_001`), field for field.
`SkipDefaults` carries the json tag `-` and is never serialized itself. -/
structure VisualizationTableColumn where
  name : String
  type : String
  title : String
  displayAs : String
  allowSearch : Bool
  numberFormat : String
  booleanValues : Option (List String)
  imageURLTemplate : String
  imageTitleTemplate : String
  imageWidth : String
  imageHeight : String
  linkURLTemplate : String
  linkTextTemplate : String
  linkTitleTemplate : String
  linkOpenInNewTab : Bool
  visible : Bool
  order : Int
  alignContent : String
  allowHTML : Bool
  highlightLinks : Bool
  skipDefaults : Bool
deriving DecidableEq

/-- `visualizationTableColumnDefaults` of `part_001`.  Fields absent from the
Go literal (`ImageWidth`, `ImageHeight`, …) get their zero values. -/
def visualizationTableColumnDefaults : VisualizationTableColumn where
  name := ""
  type := ""
  title := ""
  displayAs := ""
  allowSearch := false
  numberFormat := ""
  booleanValues := some ["false", "true"]
  imageURLTemplate := "\x7b\x7b @ \x7d\x7d"
  imageTitleTemplate := "\x7b\x7b @ \x7d\x7d"
  imageWidth := ""
  imageHeight := ""
  linkURLTemplate := "\x7b\x7b @ \x7d\x7d"
  linkTextTemplate := "\x7b\x7b @ \x7d\x7d"
  linkTitleTemplate := "\x7b\x7b @ \x7d\x7d"
  linkOpenInNewTab := true
  visible := true
  order := 0
  alignContent := "left"
  allowHTML := true
  highlightLinks := false
  skipDefaults := false

/-- `api.VisualizationTableOptions`. -/
structure VisualizationTableOptions where
  itemsPerPage : Int
  columns : List VisualizationTableColumn

/-- The options payload of a visualization: a structured table-options value
or a free-form JSON tree (for every other visualization type). -/
inductive VisOptions where
  | table (t : VisualizationTableOptions)
  | other (payload : Json)

/-- `api.Visualization`.  The raw `Query` payload is modelled by the only
field the program reads from it, the embedded query's ID. -/
structure Visualization where
  id : Int
  queryID : String
  type : String
  name : String
  description : String
  options : VisOptions
  query : Option String

/-- `api.Schedule`-equivalent: the schedule carried by a query. -/
structure Schedule where
  interval : Int

/-- The `Multi` sub-shape of enum / query-backed parameters.  The Go field
names are `Prefix`, `Suffix` and `Separator`. -/
structure Multi where
  pre : String
  suf : String
  sep : String
deriving DecidableEq

/-- The common `{Name, Title}` header embedded in every parameter variant. -/
structure QueryParameterBase where
  name : String
  title : String
deriving DecidableEq

/-- The closed set of `api.QueryParameter*` variants.  `number` carries the
value already truncated to `Int`, as `writeQuery` prints `int(qp.Value)`;
`queryBacked` is `api.QueryParameterQuery`. -/
inductive QueryParameter where
  | text (base : QueryParameterBase) (value : String)
  | number (base : QueryParameterBase) (value : Int)
  | enum (base : QueryParameterBase) (options : String) (values : List String)
      (multi : Option Multi)
  | queryBacked (base : QueryParameterBase) (queryID : String)
      (values : List String) (multi : Option Multi)
  | date (base : QueryParameterBase) (value : String)
  | dateTime (base : QueryParameterBase) (value : String)
  | dateTimeSec (base : QueryParameterBase) (value : String)
  | dateRange (base : QueryParameterBase) (value : String)
  | dateTimeRange (base : QueryParameterBase) (value : String)
  | dateTimeSecRange (base : QueryParameterBase) (value : String)
deriving DecidableEq

/-- The options member of `api.Query`. -/
structure QueryOptions where
  parameters : List QueryParameter
deriving DecidableEq

/-- `api.Query`; embedded visualization payloads modelled decoded. -/
structure Query where
  id : String
  dataSourceID : String
  name : String
  description : String
  tags : List String
  schedule : Option Schedule
  options : QueryOptions
  query : String
  visualizations : List Visualization

/-- Widget layout position. -/
structure Position where
  sizeX : Int
  sizeY : Int
  posX : Int
  posY : Int

/-- One widget parameter mapping; `value` models the `interface{}`-typed
`Value` field (`Json.null` is Go `nil`). -/
structure ParameterMapping where
  name : String
  type : String
  mapTo : String
  title : String
  value : Json

/-- The options member of `api.Widget`. -/
structure WidgetOptions where
  position : Option Position
  parameterMapping : List ParameterMapping

/-- `api.Widget`; the raw `Visualization` payload is modelled decoded, with
`none` standing for an empty (`len == 0`) payload. -/
structure Widget where
  id : Int
  dashboardID : String
  text : Option String
  visualization : Option Visualization
  visualizationID : Option Int
  options : WidgetOptions

/-- `api.Dashboard`; embedded widget payloads modelled decoded. -/
structure Dashboard where
  id : String
  name : String
  tags : List String
  widgets : List Widget

end api

/-! ### Table-column serialization (`part_001`)

`MarshalJSON` first serializes the column struct-wise (struct field order,
with `order` omitted when zero because of its `omitempty` tag), then — in
suppression mode — deletes every key whose raw value equals the one in the
serialized defaults, iterating over the defaults map in an arbitrary order,
and finally re-marshals the remaining map (Go serializes maps with sorted
keys).  The iteration order is an explicit parameter here so that its
irrelevance can be proved. -/

/-- The struct-order serialization of a column: key/value pairs exactly as
`json.Marshal` produces them, `order` omitted when zero (`omitempty`). -/
def marshalFields (c : api.VisualizationTableColumn) : List (String × JVal) :=
  [("name", .str c.name), ("type", .str c.type), ("title", .str c.title),
   ("displayAs", .str c.displayAs), ("allowSearch", .bool c.allowSearch),
   ("numberFormat", .str c.numberFormat),
   ("booleanValues", .strArr c.booleanValues),
   ("imageUrlTemplate", .str c.imageURLTemplate),
   ("imageTitleTemplate", .str c.imageTitleTemplate),
   ("imageWidth", .str c.imageWidth), ("imageHeight", .str c.imageHeight),
   ("linkUrlTemplate", .str c.linkURLTemplate),
   ("linkTextTemplate", .str c.linkTextTemplate),
   ("linkTitleTemplate", .str c.linkTitleTemplate),
   ("linkOpenInNewTab", .bool c.linkOpenInNewTab),
   ("visible", .bool c.visible)]
  ++ (if c.order = 0 then [] else [("order", JVal.num c.order)])
  ++ [("alignContent", .str c.alignContent), ("allowHTML", .bool c.allowHTML),
      ("highlightLinks", .bool c.highlightLinks)]

/-- The serialized defaults compared against during suppression. -/
def defaultFields : List (String × JVal) :=
  marshalFields api.visualizationTableColumnDefaults

/-- One step of the deletion loop: `vt, ok := this[k]; if ok &&
bytes.Equal(vt, v) { delete(this, k) }`. -/
def deleteDefault (this : List (String × JVal)) (kv : String × JVal) :
    List (String × JVal) :=
  if this.lookup kv.1 = some kv.2 then this.filter (fun e => e.1 != kv.1)
  else this

/-- The whole deletion loop, iterating over the serialized defaults in the
order `ds` (Go map iteration order is unspecified). -/
def skipDefaultFields (ds : List (String × JVal))
    (c : api.VisualizationTableColumn) : List (String × JVal) :=
  ds.foldl deleteDefault (marshalFields c)

/-- Key-ordered insertion, modelling Go's sorted map serialization. -/
def insertByKey (kv : String × JVal) :
    List (String × JVal) → List (String × JVal)
  | [] => [kv]
  | e :: es => if kv.1 < e.1 then kv :: e :: es else e :: insertByKey kv es

/-- Sort an association list by key (Go serializes maps key-sorted). -/
def sortByKey : List (String × JVal) → List (String × JVal)
  | [] => []
  | kv :: l => insertByKey kv (sortByKey l)

/-- The field list produced by `VisualizationTableColumn.MarshalJSON`:
struct-order fields when `SkipDefaults` is unset, otherwise the key-sorted
remainder of the deletion loop. -/
def marshalColumn (c : api.VisualizationTableColumn) : List (String × JVal) :=
  if c.skipDefaults then sortByKey (skipDefaultFields defaultFields c)
  else marshalFields c

/-! ### Inventory (`main.go`)

The four entry types wrap a fetched object with its `RemoteID` and the
assigned `ResourceName`; the `Inventory` holds the four append-only
collections.  The network client is a pure `Fetcher` (the claims quantify over
its responses; a transport error would abort the whole run and is therefore
not part of the state space the claims range over). -/

structure Dashboard where
  remoteID : String
  resourceName : String
  object : api.Dashboard

structure Widget where
  remoteID : String
  resourceName : String
  object : api.Widget

structure Query where
  remoteID : String
  resourceName : String
  object : api.Query

structure Visualization where
  remoteID : String
  resourceName : String
  object : api.Visualization

structure Inventory where
  dashboards : List Dashboard
  widgets : List Widget
  queries : List Query
  visualizations : List Visualization

def emptyInventory : Inventory where
  dashboards := []
  widgets := []
  queries := []
  visualizations := []

structure Fetcher where
  fetchDashboard : String → api.Dashboard
  fetchQuery : String → api.Query

/-- The `vtyp` tally of `loadQuery`: how many visualizations of the query
share each lower-cased type tag (a Go map used only for keyed lookups). -/
def visTypeTally (vps : List Visualization) (typ : String) : Nat :=
  (vps.map (fun vp => asciiLower vp.object.type)).count typ

/-- The second naming pass of `loadQuery`.  `seen` carries the lower-cased
types of the visualizations already named; its count of the current type is
exactly the `vtypSeq` counter of the source (which increments on every
non-unique type, i.e. on every earlier occurrence of the same type). -/
def assignVisNamesAux (qn : String) (tally : String → Nat) (seen : List String) :
    List Visualization → List Visualization
  | [] => []
  | vp :: rest =>
    let typ := asciiLower vp.object.type
    let rn :=
      if tally typ = 1 then qn ++ "_" ++ typ
      else qn ++ "_" ++ typ ++ "_" ++ toString (seen.count typ)
    { vp with resourceName := rn } :: assignVisNamesAux qn tally (seen ++ [typ]) rest

/-- Both naming passes over the visualizations of one query. -/
def assignVisNames (qn : String) (vps : List Visualization) : List Visualization :=
  assignVisNamesAux qn (visTypeTally vps) [] vps

/-- The first visualization loop of `loadQuery`: decode each embedded
payload, backfill its `QueryID`, and wrap it with its stringified remote ID
and a still-empty resource name. -/
def mkVisList (q : api.Query) : List Visualization :=
  q.visualizations.map (fun v =>
    let v2 := { v with queryID := q.id }
    ({ remoteID := toString v2.id, resourceName := "", object := v2 } : Visualization))

/-- The inventory entry built for a fetched query: its RemoteID and the
resource name canonicalized from its display name. -/
def mkQueryEntry (q : api.Query) : Query where
  remoteID := q.id
  resourceName := canonicalize q.name
  object := q

/-- `Inventory.loadQuery`: no-op when the RemoteID is already present,
otherwise fetch, canonicalize the display name, link and name the embedded
visualizations, and append. -/
def loadQuery (f : Fetcher) (inv : Inventory) (id : String) : Inventory :=
  if inv.queries.any (fun qp => qp.remoteID == id) then inv
  else
    let q := f.fetchQuery id
    let qp := mkQueryEntry q
    let vps := assignVisNames qp.resourceName (mkVisList q)
    { inv with
        queries := inv.queries ++ [qp],
        visualizations := inv.visualizations ++ vps }

/-- The widget-construction loop of `loadDashboard` (`for i, widget := range
d.Widgets`): link to the dashboard, capture the embedded visualization ID when
present, and name positionally. -/
def mkWidgetsAux (dn : String) (did : String) (i : Nat) :
    List api.Widget → List Widget
  | [] => []
  | w :: rest =>
    let w2 := { w with dashboardID := did }
    let w3 :=
      match w2.visualization with
      | some v => { w2 with visualizationID := some v.id }
      | none => w2
    ({ remoteID := toString w3.id,
       resourceName := dn ++ "_" ++ toString i,
       object := w3 } : Widget) :: mkWidgetsAux dn did (i + 1) rest

/-- The second widget traversal of `loadDashboard`: when a widget's
visualization payload carries an embedded query reference, recurse into
`loadQuery` on that query's remote ID. -/
def recurseVis (f : Fetcher) (acc : Inventory) (wp : Widget) : Inventory :=
  match wp.object.visualization with
  | none => acc
  | some v =>
    match v.query with
    | none => acc
    | some qid => loadQuery f acc qid

/-- The inventory entry built for a fetched dashboard. -/
def mkDashboardEntry (d : api.Dashboard) : Dashboard where
  remoteID := d.id
  resourceName := canonicalize d.name
  object := d

/-- `Inventory.loadDashboard`: no-op when the RemoteID is already present,
otherwise fetch, name the dashboard and its widgets, append them, and only
then recurse through the widgets' embedded query references via `loadQuery`. -/
def loadDashboard (f : Fetcher) (inv : Inventory) (id : String) : Inventory :=
  if inv.dashboards.any (fun dp => dp.remoteID == id) then inv
  else
    let d := f.fetchDashboard id
    let dp := mkDashboardEntry d
    let wps := mkWidgetsAux dp.resourceName d.id 0 d.widgets
    let inv2 : Inventory :=
      { inv with
          dashboards := inv.dashboards ++ [dp],
          widgets := inv.widgets ++ wps }
    wps.foldl (recurseVis f) inv2

/-- One traversal root processed by `main`: the `dashboard` mode feeds its
arguments to `loadDashboard`, the `query` mode to `loadQuery`. -/
inductive LoadCmd where
  | dash (id : String)
  | query (id : String)

/-- A whole run of the Inventory Builder over a sequence of roots. -/
def runLoads (f : Fetcher) (cmds : List LoadCmd) : Inventory :=
  cmds.foldl
    (fun inv c =>
      match c with
      | .dash id => loadDashboard f inv id
      | .query id => loadQuery f inv id)
    emptyInventory

/-! ### JSON serialization of option payloads

A plain, deterministic serializer standing in for `json.MarshalIndent`
(whitespace differences aside); object fields are rendered in the order the
map serializer emits them (sorted for the suppression marshaller, which feeds
an already-sorted list in here). -/

def Json.render : Json → String
  | .null => "null"
  | .bool b => if b then "true" else "false"
  | .num n => toString n
  | .str s => goQuote s
  | .arr es =>
    "[" ++ String.intercalate ", " (es.attach.map (fun e => Json.render e.1)) ++ "]"
  | .obj fs =>
    "\x7b" ++ String.intercalate ", "
      (fs.attach.map (fun f => goQuote f.1.1 ++ ": " ++ Json.render f.1.2)) ++ "\x7d"
decreasing_by
  · have := List.sizeOf_lt_of_mem e.2
    simp only [Json.arr.sizeOf_spec]
    omega
  · have h1 := List.sizeOf_lt_of_mem f.2
    have h2 : sizeOf f.1.2 < sizeOf f.1 := by
      obtain ⟨a, b⟩ := f.1
      simp
    simp only [Json.obj.sizeOf_spec]
    omega

def jsonOfJVal : JVal → Json
  | .str s => .str s
  | .bool b => .bool b
  | .num n => .num n
  | .strArr none => .null
  | .strArr (some xs) => .arr (xs.map Json.str)

/-- The JSON tree produced for one column by its (custom) marshaller. -/
def columnJson (c : api.VisualizationTableColumn) : Json :=
  .obj ((marshalColumn c).map (fun kv => (kv.1, jsonOfJVal kv.2)))

/-- `api.VisualizationTableOptions` serialization (`itemsPerPage` and
`columns` both carry `omitempty`). -/
def tableOptionsJson (t : api.VisualizationTableOptions) : Json :=
  .obj ((if t.itemsPerPage = 0 then [] else [("itemsPerPage", Json.num t.itemsPerPage)])
    ++ (if t.columns.isEmpty then [] else [("columns", Json.arr (t.columns.map columnJson))]))

def api.VisOptions.toJson : api.VisOptions → Json
  | .table t => tableOptionsJson t
  | .other j => j

/-! ### Renderer (`main.go`)

Output is modelled as the list of lines the `x`/`xRaw` helpers write (each
call appends one line; `xRaw` may write a multi-line chunk, kept here as one
element).  The `os.Create`/`Fprintf` I/O errors are outside the model; the
`log.Fatalf` and `panic` paths are `RenderErr.fatal`, and the unchecked
`Values[0]` index is `RenderErr.indexOutOfRange`. -/

/-- The `xStrings` helper: a field, one quoted element per line, `]`. -/
def xStrings (field : String) (vs : List String) : List String :=
  (field ++ " = [") :: (vs.map (fun v => goQuote v ++ ",") ++ ["]"])

/-- The `wrap` closure of the parameter loop in `writeQuery`. -/
def renderWrap (base : api.QueryParameterBase) (body : List String) : List String :=
  ["", "parameter \x7b", "name = " ++ goQuote base.name]
  ++ (if base.title = "" then [] else ["title = " ++ goQuote base.title])
  ++ [""] ++ body ++ ["\x7d"]

/-- The nested `multiple` block shared by enum and query-backed parameters. -/
def multiBlock (m : api.Multi) : List String :=
  ["", "multiple \x7b", "prefix = " ++ goQuote m.pre,
   "suffix = " ++ goQuote m.suf, "separator = " ++ goQuote m.sep, "\x7d"]

/-- One arm of the parameter type switch in `writeQuery`.  In the non-multi
enum/query arms the source reads `qp.Values[0]` without a bounds check. -/
def renderParam : api.QueryParameter → Except RenderErr (List String)
  | .text base v => .ok (renderWrap base ["text \x7b", "value = " ++ goQuote v, "\x7d"])
  | .number base v => .ok (renderWrap base ["number \x7b", "value = " ++ toString v, "\x7d"])
  | .enum base opts values multi =>
    match multi with
    | some m =>
      .ok (renderWrap base (["enum \x7b"] ++ xStrings "options" (opts.splitOn "\n")
        ++ xStrings "values" values ++ multiBlock m ++ ["\x7d"]))
    | none =>
      match values with
      | [] => .error .indexOutOfRange
      | v :: _ =>
        .ok (renderWrap base (["enum \x7b"] ++ xStrings "options" (opts.splitOn "\n")
          ++ ["value = " ++ goQuote v, "\x7d"]))
  | .queryBacked base qid values multi =>
    match multi with
    | some m =>
      .ok (renderWrap base (["query \x7b", "query_id = " ++ goQuote qid]
        ++ xStrings "values" values ++ multiBlock m ++ ["\x7d"]))
    | none =>
      match values with
      | [] => .error .indexOutOfRange
      | v :: _ =>
        .ok (renderWrap base (["query \x7b", "query_id = " ++ goQuote qid,
          "value = " ++ goQuote v, "\x7d"]))
  | .date base v => .ok (renderWrap base ["date \x7b", "value = " ++ goQuote v, "\x7d"])
  | .dateTime base v =>
    .ok (renderWrap base ["datetime \x7b", "value = " ++ goQuote v, "\x7d"])
  | .dateTimeSec base v =>
    .ok (renderWrap base ["datetimesec \x7b", "value = " ++ goQuote v, "\x7d"])
  | .dateRange base v =>
    .ok (renderWrap base ["date_range \x7b", "value = " ++ goQuote v, "\x7d"])
  | .dateTimeRange base v =>
    .ok (renderWrap base ["datetime_range \x7b", "value = " ++ goQuote v, "\x7d"])
  | .dateTimeSecRange base v =>
    .ok (renderWrap base ["datetimesec_range \x7b", "value = " ++ goQuote v, "\x7d"])

/-- The query resource block of `writeQuery` (everything written before the
visualization pass). -/
def queryBlockLines (qp : Query) : Except RenderErr (List String) :=
  let q := qp.object
  match mapME renderParam q.options.parameters with
  | .error e => .error e
  | .ok pls =>
    .ok (["resource \"databricks_sql_query\" \"" ++ qp.resourceName ++ "\" \x7b",
          "data_source_id = " ++ goQuote q.dataSourceID,
          "name = " ++ goQuote q.name]
      ++ (if q.description = "" then [] else ["description = " ++ goQuote q.description])
      ++ [""] ++ xStrings "tags" q.tags
      ++ (match q.schedule with
          | none => []
          | some s => ["", "schedule \x7b", "interval = " ++ toString s.interval, "\x7d"])
      ++ pls.flatten
      ++ ["", "query = <<SQL", q.query, "SQL", "\x7d"])

/-- One visualization block of `writeQuery`: the options payload is
re-serialized — for type `table` after switching every column to
default-suppression mode and zeroing its order field — and the query is
referenced symbolically via its resource name. -/
def visBlockLines (qp : Query) (vp : Visualization) : Except RenderErr (List String) :=
  let v := vp.object
  let typ := asciiLower v.type
  let optE : Except RenderErr String :=
    if typ = "table" then
      match v.options with
      | .table t =>
        .ok (Json.render (tableOptionsJson
          { t with columns :=
              t.columns.map (fun c => { c with skipDefaults := true, order := 0 }) }))
      | .other _ => .error (.fatal "table options decode failed")
    else
      .ok (Json.render v.options.toJson)
  match optE with
  | .error e => .error e
  | .ok optStr =>
    .ok (["", "resource \"databricks_sql_visualization\" \"" ++ vp.resourceName ++ "\" \x7b",
          "query_id = databricks_sql_query." ++ qp.resourceName ++ ".id",
          "type = " ++ goQuote typ,
          "name = " ++ goQuote v.name]
      ++ (if v.description = "" then [] else ["description = " ++ goQuote v.description])
      ++ ["", "options = <<JSON", optStr, "JSON", "\x7d"])

/-- `Inventory.writeQuery`: the query block followed by the blocks of exactly
those inventory visualizations whose `QueryID` matches, in inventory order. -/
def writeQuery (inv : Inventory) (qp : Query) : Except RenderErr (List String) :=
  match queryBlockLines qp with
  | .error e => .error e
  | .ok ql =>
    match mapME (visBlockLines qp)
        (inv.visualizations.filter (fun vp => vp.object.queryID == qp.remoteID)) with
    | .error e => .error e
    | .ok vls => .ok (ql ++ vls.flatten)

/-- The dashboard resource block of `writeDashboard`. -/
def dashboardBlockLines (dp : Dashboard) : List String :=
  ["resource \"databricks_sql_dashboard\" \"" ++ dp.resourceName ++ "\" \x7b",
   "name = " ++ goQuote dp.object.name, ""]
  ++ xStrings "tags" dp.object.tags ++ ["\x7d"]

/-- One parameter-mapping block of a widget; a value that is neither absent
nor a plain string hits the `panic` in the value type switch. -/
def paramMappingLines (pv : api.ParameterMapping) : Except RenderErr (List String) :=
  match (match pv.value with
         | Json.null => Except.ok ([] : List String)
         | Json.str s => Except.ok ["value = " ++ goQuote s]
         | _ => Except.error (RenderErr.fatal "Unhandled value type")) with
  | .error e => .error e
  | .ok vline =>
    .ok (["", "parameter \x7b", "name = " ++ goQuote pv.name,
          "type = " ++ goQuote pv.type]
      ++ (if pv.mapTo = "" then [] else ["map_to = " ++ goQuote pv.mapTo])
      ++ (if pv.title = "" then [] else ["title = " ++ goQuote pv.title])
      ++ vline ++ ["\x7d"])

/-- One widget block of `writeDashboard`.  A set `VisualizationID` is looked
up (first match) in the inventory's visualization collection by its
stringified remote ID; a miss is the `log.Fatalf("Couldn't find
visualization...")` path.  Without a visualization the verbatim text body is
emitted. -/
def widgetBlockLines (inv : Inventory) (dp : Dashboard) (wp : Widget) :
    Except RenderErr (List String) :=
  let w := wp.object
  let visLinesE : Except RenderErr (List String) :=
    match w.visualizationID with
    | some vid =>
      match inv.visualizations.find? (fun vpp => vpp.remoteID == toString vid) with
      | none => .error (.fatal "Couldn't find visualization...")
      | some vp =>
        .ok ["visualization_id = databricks_sql_visualization." ++ vp.resourceName ++ ".id"]
    | none =>
      .ok (["text = <<EOT"]
        ++ (match w.text with | some t => [t] | none => []) ++ ["EOT"])
  match visLinesE with
  | .error e => .error e
  | .ok visLines =>
    match mapME paramMappingLines w.options.parameterMapping with
    | .error e => .error e
    | .ok pmls =>
      .ok (["", "resource \"databricks_sql_widget\" \"" ++ wp.resourceName ++ "\" \x7b",
            "dashboard_id = databricks_sql_dashboard." ++ dp.resourceName ++ ".id"]
        ++ visLines
        ++ (match w.options.position with
            | some p =>
              ["", "position \x7b", "size_x = " ++ toString p.sizeX,
               "size_y = " ++ toString p.sizeY, "pos_x = " ++ toString p.posX,
               "pos_y = " ++ toString p.posY, "\x7d"]
            | none => [])
        ++ pmls.flatten ++ ["\x7d"])

/-- `Inventory.writeDashboard`: the dashboard block followed by the blocks of
exactly those inventory widgets whose `DashboardID` matches, in inventory
order. -/
def writeDashboard (inv : Inventory) (dp : Dashboard) : Except RenderErr (List String) :=
  match mapME (widgetBlockLines inv dp)
      (inv.widgets.filter (fun wp => wp.object.dashboardID == dp.remoteID)) with
  | .error e => .error e
  | .ok wls => .ok (dashboardBlockLines dp ++ wls.flatten)

/-! ### Canonicalization properties (claim C6) -/

theorem data_mk (l : List Char) : (String.mk l).data = l := rfl

theorem char_toNat_ofNat_valid (n : Nat) (h : n < 55296) : (Char.ofNat n).toNat = n := by
  have hv : n.isValidChar := Or.inl h
  rw [Char.ofNat, dif_pos hv]
  rfl

theorem asciiLowerChar_toNat_upper (c : Char) (h : 65 ≤ c.toNat ∧ c.toNat ≤ 90) :
    (asciiLowerChar c).toNat = c.toNat + 32 := by
  rw [asciiLowerChar, if_pos h]
  exact char_toNat_ofNat_valid _ (by omega)

theorem isLowerWord_asciiLowerChar (c : Char) (h : isWordChar c = true) :
    isLowerWord (asciiLowerChar c) = true := by
  rw [isWordChar] at h
  simp only [Bool.or_eq_true, decide_eq_true_eq] at h
  rw [isLowerWord]
  simp only [Bool.or_eq_true, decide_eq_true_eq]
  by_cases hu : 65 ≤ c.toNat ∧ c.toNat ≤ 90
  · have := asciiLowerChar_toNat_upper c hu
    omega
  · have he : asciiLowerChar c = c := by rw [asciiLowerChar, if_neg hu]
    rw [he]
    omega

theorem canonicalize_chars (s : String) :
    ∀ c ∈ (canonicalize s).data, isLowerWord c = true := by
  intro c hc
  rw [canonicalize, data_mk] at hc
  obtain ⟨b, hb, rfl⟩ := List.mem_map.mp hc
  obtain ⟨a, _, rfl⟩ := List.mem_map.mp hb
  apply isLowerWord_asciiLowerChar
  by_cases hw : isWordChar a = true
  · rw [if_pos hw]; exact hw
  · rw [if_neg hw]; decide

theorem lowerWord_fixes (c : Char) (h : isLowerWord c = true) :
    isParen c = false ∧ isWordChar c = true ∧ asciiLowerChar c = c := by
  rw [isLowerWord] at h
  simp only [Bool.or_eq_true, decide_eq_true_eq] at h
  refine ⟨?_, ?_, ?_⟩
  · rw [isParen]
    simp only [Bool.or_eq_false_iff, decide_eq_false_iff_not]
    omega
  · rw [isWordChar]
    simp only [Bool.or_eq_true, decide_eq_true_eq]
    omega
  · rw [asciiLowerChar, if_neg (by omega)]

theorem pipeline_fixed (l : List Char) (h : ∀ c ∈ l, isLowerWord c = true) :
    ((l.filter (fun c => !isParen c)).map
      (fun c => if isWordChar c then c else '_')).map asciiLowerChar = l := by
  induction l with
  | nil => rfl
  | cons a t ih =>
    obtain ⟨hp, hw, hl⟩ := lowerWord_fixes a (h a (List.mem_cons_self a t))
    rw [List.filter_cons_of_pos (by rw [hp]; rfl), List.map_cons, List.map_cons,
      if_pos hw, hl, ih (fun c hc => h c (List.mem_cons_of_mem _ hc))]

/-- Claim C6: `canonicalize` is idempotent and its output consists solely of
lower-case word characters (lower-case letters, digits) and underscores; it is
total on all input strings. -/
theorem canonicalize_idempotent_and_charset (s : String) :
    canonicalize (canonicalize s) = canonicalize s ∧
    ∀ c ∈ (canonicalize s).data, isLowerWord c = true := by
  refine ⟨?_, canonicalize_chars s⟩
  calc canonicalize (canonicalize s)
      = String.mk ((((canonicalize s).data.filter (fun c => !isParen c)).map
          (fun c => if isWordChar c then c else '_')).map asciiLowerChar) := rfl
    _ = String.mk (canonicalize s).data :=
        congrArg String.mk (pipeline_fixed _ (canonicalize_chars s))
    _ = canonicalize s := rfl

/-- Witness for C6 at a concrete input: `"Foo Bar(1)"` canonicalizes to
`"foo_bar_1"`, a fixed point made of lower-case word characters. -/
theorem canonicalize_idempotent_witness :
    canonicalize (canonicalize "Foo Bar(1)") = canonicalize "Foo Bar(1)" ∧
    isLowerWord 'f' = true :=
  ⟨(canonicalize_idempotent_and_charset "Foo Bar(1)").1,
   (canonicalize_idempotent_and_charset "Foo Bar(1)").2 'f' (by decide)⟩

/-! ### Builder bookkeeping lemmas -/

theorem loadQuery_noop (f : Fetcher) (inv : Inventory) (id : String)
    (h : inv.queries.any (fun qp => qp.remoteID == id) = true) :
    loadQuery f inv id = inv := by
  rw [loadQuery, if_pos h]

theorem loadDashboard_noop (f : Fetcher) (inv : Inventory) (id : String)
    (h : inv.dashboards.any (fun dp => dp.remoteID == id) = true) :
    loadDashboard f inv id = inv := by
  rw [loadDashboard, if_pos h]

theorem loadQuery_dashboards (f : Fetcher) (inv : Inventory) (id : String) :
    (loadQuery f inv id).dashboards = inv.dashboards := by
  rw [loadQuery]
  split <;> rfl

theorem loadQuery_widgets (f : Fetcher) (inv : Inventory) (id : String) :
    (loadQuery f inv id).widgets = inv.widgets := by
  rw [loadQuery]
  split <;> rfl

theorem recurseVis_dashboards (f : Fetcher) (acc : Inventory) (wp : Widget) :
    (recurseVis f acc wp).dashboards = acc.dashboards := by
  rw [recurseVis]
  split
  · rfl
  · split
    · rfl
    · exact loadQuery_dashboards ..

theorem recurseVis_widgets (f : Fetcher) (acc : Inventory) (wp : Widget) :
    (recurseVis f acc wp).widgets = acc.widgets := by
  rw [recurseVis]
  split
  · rfl
  · split
    · rfl
    · exact loadQuery_widgets ..

theorem foldl_recurseVis_dashboards (f : Fetcher) :
    ∀ (l : List Widget) (acc : Inventory),
      (l.foldl (recurseVis f) acc).dashboards = acc.dashboards := by
  intro l
  induction l with
  | nil => intro acc; rfl
  | cons a t ih =>
    intro acc
    rw [List.foldl_cons, ih, recurseVis_dashboards]

theorem foldl_recurseVis_widgets (f : Fetcher) :
    ∀ (l : List Widget) (acc : Inventory),
      (l.foldl (recurseVis f) acc).widgets = acc.widgets := by
  intro l
  induction l with
  | nil => intro acc; rfl
  | cons a t ih =>
    intro acc
    rw [List.foldl_cons, ih, recurseVis_widgets]

theorem mkWidgetsAux_length (dn did : String) :
    ∀ (l : List api.Widget) (i : Nat), (mkWidgetsAux dn did i l).length = l.length := by
  intro l
  induction l with
  | nil => intro i; rfl
  | cons a t ih => intro i; simpa [mkWidgetsAux] using ih (i + 1)

theorem mkWidgetsAux_get_name (dn did : String) :
    ∀ (l : List api.Widget) (i k : Nat) (hk : k < (mkWidgetsAux dn did i l).length),
      ((mkWidgetsAux dn did i l).get ⟨k, hk⟩).resourceName = dn ++ "_" ++ toString (i + k) := by
  intro l
  induction l with
  | nil => intro i k hk; simp [mkWidgetsAux] at hk
  | cons a t ih =>
    intro i k hk
    match k with
    | 0 => simp [mkWidgetsAux]
    | k' + 1 =>
      have : i + (k' + 1) = (i + 1) + k' := by omega
      rw [this]
      exact ih (i + 1) k' (by simpa [mkWidgetsAux] using hk)

/-! ### Widget naming (claim C7) -/

/-- Claim C7: when `loadDashboard` actually loads a dashboard (fresh RemoteID),
the widgets it appends are named purely positionally:
`{dashboardResourceName}_{k}` for the widget at zero-based position `k` of the
dashboard's widget list — the widget's own remote-assigned numeric ID does not
enter the name. -/
theorem loadDashboard_widget_naming (f : Fetcher) (inv : Inventory) (id : String)
    (h : inv.dashboards.any (fun dp => dp.remoteID == id) = false) :
    ∃ wps, (loadDashboard f inv id).widgets = inv.widgets ++ wps
      ∧ wps.length = (f.fetchDashboard id).widgets.length
      ∧ ∀ k (hk : k < wps.length),
          (wps.get ⟨k, hk⟩).resourceName =
            canonicalize (f.fetchDashboard id).name ++ "_" ++ toString k := by
  refine ⟨mkWidgetsAux (canonicalize (f.fetchDashboard id).name)
      (f.fetchDashboard id).id 0 (f.fetchDashboard id).widgets, ?_,
    mkWidgetsAux_length _ _ _ _, ?_⟩
  · rw [loadDashboard, if_neg (by simp [h])]
    simp only [foldl_recurseVis_widgets]
    rfl
  · intro k hk
    simpa using mkWidgetsAux_get_name (canonicalize (f.fetchDashboard id).name)
      (f.fetchDashboard id).id (f.fetchDashboard id).widgets 0 k hk

/-- A minimal query response used by the concrete fetchers below. -/
def emptyApiQuery (id : String) : api.Query where
  id := id
  dataSourceID := ""
  name := ""
  description := ""
  tags := []
  schedule := none
  options := { parameters := [] }
  query := ""
  visualizations := []

/-- A minimal widget payload with a given remote numeric ID. -/
def emptyApiWidget (wid : Int) : api.Widget where
  id := wid
  dashboardID := ""
  text := none
  visualization := none
  visualizationID := none
  options := { position := none, parameterMapping := [] }

/-- Fetcher serving one dashboard (`My Dash`) with two widgets whose remote
IDs are 10 and 20. -/
def twoWidgetFetcher : Fetcher where
  fetchDashboard := fun id =>
    { id := id, name := "My Dash", tags := [],
      widgets := [emptyApiWidget 10, emptyApiWidget 20] }
  fetchQuery := emptyApiQuery

/-- Witness for C7: loading `My Dash` (two widgets, remote IDs 10 and 20)
appends widgets named `my_dash_0` and `my_dash_1`. -/
theorem loadDashboard_widget_naming_witness :
    ∃ wps, (loadDashboard twoWidgetFetcher emptyInventory "d1").widgets =
        emptyInventory.widgets ++ wps
      ∧ wps.length = (twoWidgetFetcher.fetchDashboard "d1").widgets.length
      ∧ ∀ k (hk : k < wps.length),
          (wps.get ⟨k, hk⟩).resourceName =
            canonicalize (twoWidgetFetcher.fetchDashboard "d1").name ++ "_" ++ toString k :=
  loadDashboard_widget_naming twoWidgetFetcher emptyInventory "d1" (by decide)

/-! ### Visualization naming (claim C3) -/

theorem assignVisNamesAux_length (qn : String) (tally : String → Nat) :
    ∀ (l : List Visualization) (seen : List String),
      (assignVisNamesAux qn tally seen l).length = l.length := by
  intro l
  induction l with
  | nil => intro seen; rfl
  | cons a t ih => intro seen; simpa [assignVisNamesAux] using ih _

theorem assignVisNamesAux_map_object (qn : String) (tally : String → Nat) :
    ∀ (l : List Visualization) (seen : List String),
      (assignVisNamesAux qn tally seen l).map (fun vp => vp.object) =
        l.map (fun vp => vp.object) := by
  intro l
  induction l with
  | nil => intro seen; rfl
  | cons a t ih => intro seen; simpa [assignVisNamesAux] using ih _

theorem assignVisNamesAux_get_name (qn : String) (tally : String → Nat) :
    ∀ (l : List Visualization) (seen : List String) (k : Nat)
      (hk : k < (assignVisNamesAux qn tally seen l).length) (hk' : k < l.length),
      ((assignVisNamesAux qn tally seen l).get ⟨k, hk⟩).resourceName =
        (fun typ =>
          if tally typ = 1 then qn ++ "_" ++ typ
          else qn ++ "_" ++ typ ++ "_" ++
            toString ((seen ++ (l.take k).map (fun v => asciiLower v.object.type)).count typ))
        (asciiLower (l.get ⟨k, hk'⟩).object.type) := by
  intro l
  induction l with
  | nil => intro seen k hk hk'; simp at hk'
  | cons a t ih =>
    intro seen k hk hk'
    match k with
    | 0 => simp [assignVisNamesAux]
    | k' + 1 =>
      have hlen : k' < (assignVisNamesAux qn tally (seen ++ [asciiLower a.object.type]) t).length := by
        rw [assignVisNamesAux_length]
        exact Nat.lt_of_succ_lt_succ hk'
      have := ih (seen ++ [asciiLower a.object.type]) k' hlen (Nat.lt_of_succ_lt_succ hk')
      simp only [assignVisNamesAux, List.get_cons_succ]
      rw [this]
      simp only [List.take_succ_cons, List.map_cons]
      have harr : ∀ (m : List String),
          seen ++ asciiLower a.object.type :: m = seen ++ [asciiLower a.object.type] ++ m := by
        intro m
        rw [List.append_assoc]
        rfl
      rw [← harr]


theorem assignVisNamesAux_get_object (qn : String) (tally : String → Nat) :
    ∀ (l : List Visualization) (seen : List String) (k : Nat)
      (hk : k < (assignVisNamesAux qn tally seen l).length) (hk' : k < l.length),
      ((assignVisNamesAux qn tally seen l).get ⟨k, hk⟩).object = (l.get ⟨k, hk'⟩).object := by
  intro l
  induction l with
  | nil => intro seen k hk hk'; simp at hk'
  | cons a t ih =>
    intro seen k hk hk'
    match k with
    | 0 => simp [assignVisNamesAux]
    | k' + 1 =>
      have hlen : k' < (assignVisNamesAux qn tally (seen ++ [asciiLower a.object.type]) t).length := by
        rw [assignVisNamesAux_length]
        exact Nat.lt_of_succ_lt_succ hk'
      simpa only [assignVisNamesAux, List.get_cons_succ] using
        ih (seen ++ [asciiLower a.object.type]) k' hlen (Nat.lt_of_succ_lt_succ hk')

theorem assignVisNames_length (qn : String) (l : List Visualization) :
    (assignVisNames qn l).length = l.length :=
  assignVisNamesAux_length qn (visTypeTally l) l []

theorem assignVisNames_map_object (qn : String) (l : List Visualization) :
    (assignVisNames qn l).map (fun vp => vp.object) = l.map (fun vp => vp.object) :=
  assignVisNamesAux_map_object qn (visTypeTally l) l []

theorem assignVisNames_get_object (qn : String) (l : List Visualization) (k : Nat)
    (hk : k < (assignVisNames qn l).length) (hk' : k < l.length) :
    ((assignVisNames qn l).get ⟨k, hk⟩).object = (l.get ⟨k, hk'⟩).object :=
  assignVisNamesAux_get_object qn (visTypeTally l) l [] k hk hk'

theorem assignVisNames_get_name (qn : String) (l : List Visualization) (k : Nat)
    (hk : k < (assignVisNames qn l).length) (hk' : k < l.length) :
    ((assignVisNames qn l).get ⟨k, hk⟩).resourceName =
      (fun typ =>
        if visTypeTally l typ = 1 then qn ++ "_" ++ typ
        else qn ++ "_" ++ typ ++ "_" ++
          toString (((l.take k).map (fun v => asciiLower v.object.type)).count typ))
      (asciiLower (l.get ⟨k, hk'⟩).object.type) := by
  have := assignVisNamesAux_get_name qn (visTypeTally l) l [] k hk hk'
  simpa only [List.nil_append] using this

/-- Claim C3: when `loadQuery` actually loads a query (fresh RemoteID), the
appended visualizations carry the fetched visualization types, and the one at
position `k` is named `{query}_{type}` when its lower-cased type is unique
within the query, else `{query}_{type}_{seq}` where `seq` counts the earlier
visualizations of the same lower-cased type in insertion order. -/
theorem loadQuery_visualization_naming (f : Fetcher) (inv : Inventory) (id : String)
    (h : inv.queries.any (fun qp => qp.remoteID == id) = false) :
    ∃ vps, (loadQuery f inv id).visualizations = inv.visualizations ++ vps
      ∧ vps.map (fun vp => vp.object.type) =
          (f.fetchQuery id).visualizations.map (fun v => v.type)
      ∧ ∀ k (hk : k < vps.length),
          (vps.get ⟨k, hk⟩).resourceName =
            (let qn := canonicalize (f.fetchQuery id).name
             let types := vps.map (fun vp => asciiLower vp.object.type)
             let typ := asciiLower (vps.get ⟨k, hk⟩).object.type
             if types.count typ = 1 then qn ++ "_" ++ typ
             else qn ++ "_" ++ typ ++ "_" ++ toString ((types.take k).count typ)) := by
  refine ⟨assignVisNames (canonicalize (f.fetchQuery id).name) (mkVisList (f.fetchQuery id)),
    ?_, ?_, ?_⟩
  · rw [loadQuery, if_neg (by simp [h])]
    rfl
  · rw [show (fun vp : Visualization => vp.object.type) =
        (fun o : api.Visualization => o.type) ∘ (fun vp : Visualization => vp.object) from rfl,
      ← List.map_map, assignVisNames_map_object, List.map_map, mkVisList, List.map_map]
    rfl
  · intro k hk
    have hk' : k < (mkVisList (f.fetchQuery id)).length := by
      rw [← assignVisNames_length (canonicalize (f.fetchQuery id).name)]
      exact hk
    have htypes : (assignVisNames (canonicalize (f.fetchQuery id).name)
          (mkVisList (f.fetchQuery id))).map (fun vp => asciiLower vp.object.type) =
        (mkVisList (f.fetchQuery id)).map (fun vp => asciiLower vp.object.type) := by
      rw [show (fun vp : Visualization => asciiLower vp.object.type) =
          (fun o : api.Visualization => asciiLower o.type) ∘ (fun vp : Visualization => vp.object) from rfl,
        ← List.map_map, assignVisNames_map_object, List.map_map]
    rw [assignVisNames_get_name (canonicalize (f.fetchQuery id).name)
        (mkVisList (f.fetchQuery id)) k hk hk',
      assignVisNames_get_object (canonicalize (f.fetchQuery id).name)
        (mkVisList (f.fetchQuery id)) k hk hk']
    simp only
    rw [htypes, visTypeTally, ← List.map_take]

/-- A minimal visualization payload with a given remote ID and type tag. -/
def mkApiVis (vid : Int) (typ : String) : api.Visualization where
  id := vid
  queryID := ""
  type := typ
  name := "v"
  description := ""
  options := .other Json.null
  query := none

/-- Fetcher serving one query (`My Query`) with visualization types
`[table, table, chart]`. -/
def tableTableChartFetcher : Fetcher where
  fetchDashboard := fun id => { id := id, name := "", tags := [], widgets := [] }
  fetchQuery := fun id =>
    { id := id, dataSourceID := "", name := "My Query", description := "",
      tags := [], schedule := none, options := { parameters := [] }, query := "",
      visualizations := [mkApiVis 1 "table", mkApiVis 2 "table", mkApiVis 3 "chart"] }

/-- Witness for C3 at the spec's own example: types `[table, table, chart]`
give resource names `my_query_table_0`, `my_query_table_1`, `my_query_chart`. -/
theorem loadQuery_visualization_naming_witness :
    (∃ vps, (loadQuery tableTableChartFetcher emptyInventory "q1").visualizations =
        emptyInventory.visualizations ++ vps
      ∧ vps.map (fun vp => vp.object.type) =
          (tableTableChartFetcher.fetchQuery "q1").visualizations.map (fun v => v.type)
      ∧ ∀ k (hk : k < vps.length),
          (vps.get ⟨k, hk⟩).resourceName =
            (let qn := canonicalize (tableTableChartFetcher.fetchQuery "q1").name
             let types := vps.map (fun vp => asciiLower vp.object.type)
             let typ := asciiLower (vps.get ⟨k, hk⟩).object.type
             if types.count typ = 1 then qn ++ "_" ++ typ
             else qn ++ "_" ++ typ ++ "_" ++ toString ((types.take k).count typ))) ∧
    ((loadQuery tableTableChartFetcher emptyInventory "q1").visualizations.map
        (fun vp => vp.resourceName)) =
      ["my_query_table_0", "my_query_table_1", "my_query_chart"] :=
  ⟨loadQuery_visualization_naming tableTableChartFetcher emptyInventory "q1" (by decide),
   by decide⟩

/-! ### ResourceName collisions (claim C1) -/

/-- Fetcher serving dashboards that all carry the display name `Foo`. -/
def sameNameFetcher : Fetcher where
  fetchDashboard := fun id => { id := id, name := "Foo", tags := [], widgets := [] }
  fetchQuery := emptyApiQuery

/-- Claim C1 fails on the code: loading two distinct dashboards whose display
names both canonicalize to `foo` leaves two dashboards with the same
ResourceName in the inventory — nothing in the builder deduplicates resource
names derived from display names. -/
theorem resourceName_collision_eval :
    ((runLoads sameNameFetcher [LoadCmd.dash "1", LoadCmd.dash "2"]).dashboards.map
        (fun dp => dp.resourceName)) = ["foo", "foo"] ∧
    ¬ ((runLoads sameNameFetcher [LoadCmd.dash "1", LoadCmd.dash "2"]).dashboards.map
        (fun dp => dp.resourceName)).Nodup := by
  decide

/-! ### RemoteID deduplication (claim C2) -/

/-- Fetcher serving one dashboard whose payload contains two widgets with the
same remote numeric ID. -/
def dupWidgetFetcher : Fetcher where
  fetchDashboard := fun id =>
    { id := id, name := "D", tags := [],
      widgets := [emptyApiWidget 7, emptyApiWidget 7] }
  fetchQuery := emptyApiQuery

/-- Counterexample to C2 as stated: widgets are inserted without any
duplicate check, so one load can leave two widgets with RemoteID `"7"` in the
inventory. -/
theorem remoteID_dedup_counterexample :
    ((runLoads dupWidgetFetcher [LoadCmd.dash "d"]).widgets.map
        (fun wp => wp.remoteID)) = ["7", "7"] ∧
    ¬ ((runLoads dupWidgetFetcher [LoadCmd.dash "d"]).widgets.map
        (fun wp => wp.remoteID)).Nodup := by
  decide

/-- The RemoteID uniqueness the builder does maintain: over the dashboard and
query collections (the two it checks before inserting). -/
def DedupInv (inv : Inventory) : Prop :=
  (inv.dashboards.map (fun dp => dp.remoteID)).Nodup ∧
  (inv.queries.map (fun qp => qp.remoteID)).Nodup

theorem loadQuery_queries_nodup (f : Fetcher) (hq : ∀ i, (f.fetchQuery i).id = i)
    (inv : Inventory) (id : String)
    (hn : (inv.queries.map (fun qp => qp.remoteID)).Nodup) :
    ((loadQuery f inv id).queries.map (fun qp => qp.remoteID)).Nodup := by
  rw [loadQuery]
  split
  · exact hn
  · rename_i hcond
    show ((inv.queries ++ [mkQueryEntry (f.fetchQuery id)]).map
        (fun qp => qp.remoteID)).Nodup
    rw [List.map_append, List.nodup_append]
    refine ⟨hn, List.nodup_singleton _, ?_⟩
    intro a ha hb
    simp only [List.map_cons, List.map_nil, List.mem_singleton] at hb
    subst hb
    rw [show (mkQueryEntry (f.fetchQuery id)).remoteID = id from hq id] at ha
    obtain ⟨qp, hqp, hqpid⟩ := List.mem_map.mp ha
    exact hcond (List.any_eq_true.mpr ⟨qp, hqp, beq_iff_eq.mpr hqpid⟩)

theorem loadQuery_dedupInv (f : Fetcher) (hq : ∀ i, (f.fetchQuery i).id = i)
    (inv : Inventory) (id : String) (h : DedupInv inv) :
    DedupInv (loadQuery f inv id) :=
  ⟨by rw [loadQuery_dashboards]; exact h.1,
   loadQuery_queries_nodup f hq inv id h.2⟩

theorem recurseVis_dedupInv (f : Fetcher) (hq : ∀ i, (f.fetchQuery i).id = i)
    (acc : Inventory) (wp : Widget) (h : DedupInv acc) :
    DedupInv (recurseVis f acc wp) := by
  rw [recurseVis]
  split
  · exact h
  · split
    · exact h
    · exact loadQuery_dedupInv f hq _ _ h

theorem foldl_recurseVis_dedupInv (f : Fetcher) (hq : ∀ i, (f.fetchQuery i).id = i) :
    ∀ (l : List Widget) (acc : Inventory), DedupInv acc →
      DedupInv (l.foldl (recurseVis f) acc) := by
  intro l
  induction l with
  | nil => intro acc h; exact h
  | cons a t ih =>
    intro acc h
    rw [List.foldl_cons]
    exact ih _ (recurseVis_dedupInv f hq acc a h)

theorem loadDashboard_dedupInv (f : Fetcher)
    (hd : ∀ i, (f.fetchDashboard i).id = i) (hq : ∀ i, (f.fetchQuery i).id = i)
    (inv : Inventory) (id : String) (h : DedupInv inv) :
    DedupInv (loadDashboard f inv id) := by
  rw [loadDashboard]
  split
  · exact h
  · rename_i hcond
    apply foldl_recurseVis_dedupInv f hq
    constructor
    · show ((inv.dashboards ++ [mkDashboardEntry (f.fetchDashboard id)]).map
          (fun dp => dp.remoteID)).Nodup
      rw [List.map_append, List.nodup_append]
      refine ⟨h.1, List.nodup_singleton _, ?_⟩
      intro a ha hb
      simp only [List.map_cons, List.map_nil, List.mem_singleton] at hb
      subst hb
      rw [show (mkDashboardEntry (f.fetchDashboard id)).remoteID = id from hd id] at ha
      obtain ⟨dp, hdp, hdpid⟩ := List.mem_map.mp ha
      exact hcond (List.any_eq_true.mpr ⟨dp, hdp, beq_iff_eq.mpr hdpid⟩)
    · exact h.2

theorem foldl_loads_dedupInv (f : Fetcher)
    (hd : ∀ i, (f.fetchDashboard i).id = i) (hq : ∀ i, (f.fetchQuery i).id = i) :
    ∀ (cmds : List LoadCmd) (acc : Inventory), DedupInv acc →
      DedupInv (cmds.foldl
        (fun inv c =>
          match c with
          | .dash id => loadDashboard f inv id
          | .query id => loadQuery f inv id) acc) := by
  intro cmds
  induction cmds with
  | nil => intro acc h; exact h
  | cons c t ih =>
    intro acc h
    rw [List.foldl_cons]
    apply ih
    cases c with
    | dash id => exact loadDashboard_dedupInv f hd hq acc id h
    | query id => exact loadQuery_dedupInv f hq acc id h

/-- Claim C2, amended: the duplicate check guards the dashboard and query
collections only.  Calling `loadDashboard` (resp. `loadQuery`) with a RemoteID
already present is a no-op leaving the inventory unchanged, and — assuming
every fetch response carries the requested ID — no run ever produces two
dashboards or two queries with equal RemoteID.  (Widgets and visualizations
are inserted with no such check; see the counterexample.) -/
theorem loads_remoteID_dedup (f : Fetcher)
    (hd : ∀ i, (f.fetchDashboard i).id = i) (hq : ∀ i, (f.fetchQuery i).id = i) :
    (∀ cmds, ((runLoads f cmds).dashboards.map (fun dp => dp.remoteID)).Nodup
           ∧ ((runLoads f cmds).queries.map (fun qp => qp.remoteID)).Nodup)
    ∧ (∀ inv id, inv.dashboards.any (fun dp => dp.remoteID == id) = true →
        loadDashboard f inv id = inv)
    ∧ (∀ inv id, inv.queries.any (fun qp => qp.remoteID == id) = true →
        loadQuery f inv id = inv) := by
  refine ⟨fun cmds => ?_, fun inv id h => loadDashboard_noop f inv id h,
    fun inv id h => loadQuery_noop f inv id h⟩
  exact foldl_loads_dedupInv f hd hq cmds emptyInventory
    ⟨List.nodup_nil, List.nodup_nil⟩

/-- Fetcher whose responses echo the requested ID (the well-behaved case). -/
def idFetcher : Fetcher where
  fetchDashboard := fun id => { id := id, name := "N", tags := [], widgets := [] }
  fetchQuery := emptyApiQuery

/-- Witness for the amended C2 on a concrete run that repeats both kinds of
roots. -/
theorem loads_remoteID_dedup_witness :
    ((runLoads idFetcher [LoadCmd.dash "a", LoadCmd.query "b", LoadCmd.dash "a",
        LoadCmd.query "b"]).dashboards.map (fun dp => dp.remoteID)).Nodup
    ∧ ((runLoads idFetcher [LoadCmd.dash "a", LoadCmd.query "b", LoadCmd.dash "a",
        LoadCmd.query "b"]).queries.map (fun qp => qp.remoteID)).Nodup :=
  (loads_remoteID_dedup idFetcher (fun _ => rfl) (fun _ => rfl)).1
    [LoadCmd.dash "a", LoadCmd.query "b", LoadCmd.dash "a", LoadCmd.query "b"]

/-! ### Table-column default suppression (claim C4) -/

theorem marshalFields_keysNodup (c : api.VisualizationTableColumn) :
    ((marshalFields c).map Prod.fst).Nodup := by
  by_cases h : c.order = 0 <;> simp [marshalFields, h]

theorem lookup_eq_of_mem_keysNodup :
    ∀ {l : List (String × JVal)}, (l.map Prod.fst).Nodup →
      ∀ {k : String} {v : JVal}, (k, v) ∈ l → l.lookup k = some v := by
  intro l
  induction l with
  | nil => intro _ k v hm; cases hm
  | cons e t ih =>
    intro h k v hm
    obtain ⟨k', v'⟩ := e
    rw [List.map_cons, List.nodup_cons] at h
    rcases List.mem_cons.mp hm with heq | hmt
    · cases heq
      simp [List.lookup]
    · by_cases hkk : k = k'
      · subst hkk
        exact absurd (List.mem_map_of_mem Prod.fst hmt) h.1
      · rw [List.lookup]
        rw [show (k == k') = false from beq_eq_false_iff_ne.mpr hkk]
        exact ih h.2 hmt

theorem deleteDefault_eq {tl : List (String × JVal)}
    (h : (tl.map Prod.fst).Nodup) (kv : String × JVal) :
    deleteDefault tl kv = tl.filter (fun e => e != kv) := by
  rw [deleteDefault]
  split
  · rename_i hl
    apply List.filter_congr
    intro e he
    by_cases hk : e.1 = kv.1
    · have hle : tl.lookup e.1 = some e.2 :=
        lookup_eq_of_mem_keysNodup h (by simpa using he)
      rw [hk, hl] at hle
      have he2 : e.2 = kv.2 := by
        injection hle with h'
        exact h'.symm
      have hekv : e = kv := Prod.ext hk he2
      subst hekv
      simp
    · simp [bne, hk, Prod.ext_iff]
  · rename_i hl
    symm
    apply List.filter_eq_self.mpr
    intro e he
    by_cases hekv : e = kv
    · subst hekv
      exact absurd (lookup_eq_of_mem_keysNodup h (by simpa using he)) hl
    · simpa [bne] using hekv

theorem keysNodup_filter {l : List (String × JVal)} (h : (l.map Prod.fst).Nodup)
    (p : String × JVal → Bool) : ((l.filter p).map Prod.fst).Nodup :=
  h.sublist (List.Sublist.map Prod.fst (List.filter_sublist l))

theorem foldl_deleteDefault :
    ∀ (ds : List (String × JVal)) (this : List (String × JVal)),
      (this.map Prod.fst).Nodup →
      ds.foldl deleteDefault this = this.filter (fun e => !(ds.contains e)) := by
  intro ds
  induction ds with
  | nil =>
    intro this _
    simp [List.foldl_nil]
  | cons d ds' ih =>
    intro this h
    rw [List.foldl_cons, deleteDefault_eq h d,
      ih _ (keysNodup_filter h _), List.filter_filter]
    apply List.filter_congr
    intro e _
    simp only [List.contains_cons, Bool.not_or, bne]
    rw [Bool.and_comm]

theorem mem_insertByKey (kv a : String × JVal) :
    ∀ (l : List (String × JVal)), a ∈ insertByKey kv l ↔ a = kv ∨ a ∈ l := by
  intro l
  induction l with
  | nil => simp [insertByKey]
  | cons e t ih =>
    rw [insertByKey]
    split
    · simp [List.mem_cons]
    · rw [List.mem_cons, ih, List.mem_cons]
      tauto

theorem mem_sortByKey (a : String × JVal) :
    ∀ (l : List (String × JVal)), a ∈ sortByKey l ↔ a ∈ l := by
  intro l
  induction l with
  | nil => simp [sortByKey]
  | cons e t ih =>
    rw [sortByKey, mem_insertByKey, ih, List.mem_cons]

/-- Claim C4, amended: in suppression mode every field whose serialized value
equals the hard-coded default is omitted; the output consists of exactly the
fields of the column whose serialized value differs from the default; the
all-defaults column serializes to an empty field list; and the `order` field
is absent whenever it is zero (the renderer zeroes it before marshalling) —
but a non-zero `order` survives suppression, see the counterexample. -/
theorem marshalColumn_skipDefaults_spec (c : api.VisualizationTableColumn)
    (h : c.skipDefaults = true) :
    (∀ kv ∈ defaultFields, kv ∉ marshalColumn c)
    ∧ (∀ kv, kv ∈ marshalColumn c ↔ (kv ∈ marshalFields c ∧ kv ∉ defaultFields))
    ∧ (c.order = 0 → ∀ v, ("order", v) ∉ marshalColumn c)
    ∧ marshalColumn { api.visualizationTableColumnDefaults with skipDefaults := true } = [] := by
  have hchar : ∀ kv, kv ∈ marshalColumn c ↔ (kv ∈ marshalFields c ∧ kv ∉ defaultFields) := by
    intro kv
    rw [marshalColumn, if_pos h, mem_sortByKey, skipDefaultFields,
      foldl_deleteDefault defaultFields (marshalFields c) (marshalFields_keysNodup c),
      List.mem_filter]
    simp [List.contains]
  refine ⟨fun kv hkv hmem => ((hchar kv).mp hmem).2 hkv, hchar, ?_, by decide⟩
  intro h0 v hmem
  have hmf := ((hchar _).mp hmem).1
  have hk : "order" ∈ (marshalFields c).map Prod.fst := List.mem_map_of_mem Prod.fst hmf
  rw [marshalFields] at hk
  simp [h0] at hk

/-- Counterexample to C4 as stated: with suppression enabled, a column whose
`Order` field is 3 (all else default) serializes to exactly `[("order", 3)]` —
the serialized output does contain the order field. -/
theorem marshalColumn_order_counterexample :
    marshalColumn { api.visualizationTableColumnDefaults with
        skipDefaults := true, order := 3 } = [("order", JVal.num 3)] ∧
    ("order", JVal.num 3) ∈ marshalColumn { api.visualizationTableColumnDefaults with
        skipDefaults := true, order := 3 } := by
  decide

/-- Witness for the amended C4 at a concrete column: all-default fields except
an explicit title. -/
theorem marshalColumn_skipDefaults_witness :
    (∀ kv ∈ defaultFields, kv ∉ marshalColumn
        { api.visualizationTableColumnDefaults with skipDefaults := true, title := "T" })
    ∧ (∀ kv, kv ∈ marshalColumn
        { api.visualizationTableColumnDefaults with skipDefaults := true, title := "T" } ↔
        (kv ∈ marshalFields
          { api.visualizationTableColumnDefaults with skipDefaults := true, title := "T" }
         ∧ kv ∉ defaultFields))
    ∧ (({ api.visualizationTableColumnDefaults with
          skipDefaults := true, title := "T" } : api.VisualizationTableColumn).order = 0 →
        ∀ v, ("order", v) ∉ marshalColumn
          { api.visualizationTableColumnDefaults with skipDefaults := true, title := "T" })
    ∧ marshalColumn { api.visualizationTableColumnDefaults with skipDefaults := true } = [] :=
  marshalColumn_skipDefaults_spec
    { api.visualizationTableColumnDefaults with skipDefaults := true, title := "T" } rfl

/-! ### Determinism (claim C5)

In this embedding the builder and renderer are functions, so re-running them
on equal inputs trivially reproduces their output; what Go leaves unspecified
is the iteration order of the `defaults` map inside the suppression
marshaller (the `vtyp`/`vtypSeq` maps of the builder are used for keyed
lookups only and involve no iteration).  The substantive conjunct below
therefore proves the marshaller's output identical for every iteration order
of the defaults. -/

theorem contains_eq_of_perm {l₁ l₂ : List (String × JVal)} (hp : l₁.Perm l₂)
    (a : String × JVal) : l₁.contains a = l₂.contains a := by
  cases h1 : l₁.contains a <;> cases h2 : l₂.contains a <;> try rfl
  · exact absurd (List.elem_iff.mpr (hp.mem_iff.mpr (List.elem_iff.mp h2))) (by simp [List.contains] at h1 ⊢; exact h1)
  · exact absurd (List.elem_iff.mpr (hp.mem_iff.mp (List.elem_iff.mp h1))) (by simp [List.contains] at h2 ⊢; exact h2)

/-- Claim C5: the builder is deterministic, rendering is deterministic, and
the default-suppression marshaller produces the same (key-sorted) output for
every iteration order of the serialized defaults map. -/
theorem run_and_render_deterministic (ds₁ ds₂ : List (String × JVal))
    (h₁ : ds₁.Perm defaultFields) (h₂ : ds₂.Perm defaultFields) :
    (∀ c, sortByKey (skipDefaultFields ds₁ c) = sortByKey (skipDefaultFields ds₂ c))
    ∧ (∀ f cmds, runLoads f cmds = runLoads f cmds)
    ∧ (∀ inv qp, writeQuery inv qp = writeQuery inv qp)
    ∧ (∀ inv dp, writeDashboard inv dp = writeDashboard inv dp) := by
  refine ⟨fun c => ?_, fun _ _ => rfl, fun _ _ => rfl, fun _ _ => rfl⟩
  rw [skipDefaultFields, skipDefaultFields,
    foldl_deleteDefault ds₁ (marshalFields c) (marshalFields_keysNodup c),
    foldl_deleteDefault ds₂ (marshalFields c) (marshalFields_keysNodup c)]
  congr 1
  apply List.filter_congr
  intro e _
  rw [contains_eq_of_perm (h₁.trans h₂.symm) e]

/-- Witness for C5: reversing the defaults' iteration order leaves the
marshalled output of a concrete non-default column unchanged. -/
theorem run_and_render_deterministic_witness :
    sortByKey (skipDefaultFields defaultFields.reverse
      { api.visualizationTableColumnDefaults with skipDefaults := true, allowSearch := true })
    = sortByKey (skipDefaultFields defaultFields
      { api.visualizationTableColumnDefaults with skipDefaults := true, allowSearch := true }) :=
  (run_and_render_deterministic defaultFields.reverse defaultFields
    (List.reverse_perm _) (List.Perm.refl _)).1 _

/-! ### Single-value parameter indexing (claim C10) -/

theorem mapME_ok_of_forall {f : α → Except RenderErr β} :
    ∀ {l : List α}, (∀ x ∈ l, ∃ y, f x = .ok y) →
      ∃ ys, mapME f l = .ok ys := by
  intro l
  induction l with
  | nil => intro _; exact ⟨[], rfl⟩
  | cons a t ih =>
    intro h
    obtain ⟨y, hy⟩ := h a (List.mem_cons_self a t)
    obtain ⟨ys, hys⟩ := ih (fun x hx => h x (List.mem_cons_of_mem _ hx))
    refine ⟨y :: ys, ?_⟩
    rw [mapME, hy, hys]

/-- The precondition of the single-value rendering branch: every enum and
query-backed parameter without a `Multi` block carries a non-empty value
list. -/
def paramValuesOK : api.QueryParameter → Bool
  | .enum _ _ values none => !values.isEmpty
  | .queryBacked _ _ values none => !values.isEmpty
  | _ => true

theorem renderParam_ok_of_valuesOK (p : api.QueryParameter)
    (h : paramValuesOK p = true) : ∃ ls, renderParam p = .ok ls := by
  cases p with
  | enum base opts values multi =>
    cases multi with
    | some m => exact ⟨_, rfl⟩
    | none =>
      cases values with
      | nil => simp [paramValuesOK] at h
      | cons v vs => exact ⟨_, rfl⟩
  | queryBacked base qid values multi =>
    cases multi with
    | some m => exact ⟨_, rfl⟩
    | none =>
      cases values with
      | nil => simp [paramValuesOK] at h
      | cons v vs => exact ⟨_, rfl⟩
  | text base v => exact ⟨_, rfl⟩
  | number base v => exact ⟨_, rfl⟩
  | date base v => exact ⟨_, rfl⟩
  | dateTime base v => exact ⟨_, rfl⟩
  | dateTimeSec base v => exact ⟨_, rfl⟩
  | dateRange base v => exact ⟨_, rfl⟩
  | dateTimeRange base v => exact ⟨_, rfl⟩
  | dateTimeSecRange base v => exact ⟨_, rfl⟩

theorem visBlockLines_error_fatal (qp : Query) (vp : Visualization) (e : RenderErr)
    (h : visBlockLines qp vp = .error e) : e ≠ .indexOutOfRange := by
  rw [visBlockLines] at h
  split at h
  · rename_i heq
    split at heq
    · split at heq
      · cases heq
      · cases heq
        simp at h
        rw [← h]
        intro hc
        cases hc
    · cases heq
  · cases h

/-- A query whose only parameter is a non-multi enum with an empty Values
list — the input on which `writeQuery` indexes out of range. -/
def emptyEnumQuery : Query where
  remoteID := "q"
  resourceName := "q"
  object :=
    { emptyApiQuery "q" with
        options := { parameters :=
          [api.QueryParameter.enum { name := "p", title := "" } "a\nb" [] none] } }

/-- Claim C10: when every non-multi enum/query-backed parameter carries a
non-empty Values list, `writeQuery` never fails by out-of-range indexing (its
`Values[0]` reads are in bounds); and the precondition is necessary — on a
query with a non-multi enum parameter whose Values list is empty,
`writeQuery` fails with the out-of-range error rather than a designed fatal
error. -/
theorem writeQuery_index_safety :
    (∀ (inv : Inventory) (qp : Query),
      (∀ p ∈ qp.object.options.parameters, paramValuesOK p = true) →
      writeQuery inv qp ≠ Except.error RenderErr.indexOutOfRange)
    ∧ writeQuery emptyInventory emptyEnumQuery = Except.error RenderErr.indexOutOfRange := by
  constructor
  · intro inv qp hps hcontra
    rw [writeQuery] at hcontra
    obtain ⟨pls, hpls⟩ :=
      mapME_ok_of_forall (fun p hp => renderParam_ok_of_valuesOK p (hps p hp))
    have hql : ∃ ql, queryBlockLines qp = .ok ql := by
      rw [queryBlockLines, hpls]
      exact ⟨_, rfl⟩
    obtain ⟨ql, hql⟩ := hql
    rw [hql] at hcontra
    simp only at hcontra
    cases hmv : mapME (visBlockLines qp)
        (inv.visualizations.filter (fun vp => vp.object.queryID == qp.remoteID)) with
    | error e =>
      rw [hmv] at hcontra
      simp only at hcontra
      injection hcontra with he
      exact mapME_error_kinds (fun x e' h' => visBlockLines_error_fatal qp x e' h') hmv he
    | ok vls =>
      rw [hmv] at hcontra
      simp only at hcontra
      cases hcontra
  · rfl

/-- Witness for the guarded half of C10: a query whose single enum parameter
has a value renders without the index error. -/
theorem writeQuery_index_safety_witness :
    writeQuery emptyInventory
      { remoteID := "q", resourceName := "q",
        object :=
          { emptyApiQuery "q" with
              options := { parameters :=
                [api.QueryParameter.enum { name := "p", title := "" } "a\nb" ["a"] none] } } }
      ≠ Except.error RenderErr.indexOutOfRange :=
  writeQuery_index_safety.1 emptyInventory
    { remoteID := "q", resourceName := "q",
      object :=
        { emptyApiQuery "q" with
            options := { parameters :=
              [api.QueryParameter.enum { name := "p", title := "" } "a\nb" ["a"] none] } } }
    (by decide)

/-! ### String head helpers

Used to show that a resource-declaration line can never coincide with a
reference line (they start with different characters), whatever the resource
name spliced into both. -/

theorem data_head_append (p s : String) (c : Char) (h : p.data.head? = some c) :
    (p ++ s).data.head? = some c := by
  rw [String.data_append]
  cases hp : p.data with
  | nil => rw [hp] at h; cases h
  | cons a t =>
    rw [hp] at h
    simpa using h

theorem ne_of_data_head (a b : String) (c₁ c₂ : Char)
    (h₁ : a.data.head? = some c₁) (h₂ : b.data.head? = some c₂) (hne : c₁ ≠ c₂) :
    a ≠ b := by
  intro h
  rw [h] at h₁
  rw [h₁] at h₂
  exact hne (by injection h₂)

theorem get_zero_of_head? {l : List String} (h : 0 < l.length) {a : String}
    (hh : l.head? = some a) : l.get ⟨0, h⟩ = a := by
  cases l with
  | nil => simp at h
  | cons x t =>
    injection hh

/-! ### Widget-to-visualization referential integrity (claim C8) -/

/-- Claim C8: a widget whose `VisualizationID` is set is rendered by looking
up the visualization collection by the stringified remote ID; when no
visualization matches, the whole dashboard rendering fails with an error (the
`log.Fatalf` path), and when rendering succeeds every such widget's block
contains the symbolic reference to the matched visualization's ResourceName —
never an empty reference or a raw remote ID. -/
theorem writeDashboard_refIntegrity :
    (∀ (inv : Inventory) (dp : Dashboard) (wp : Widget) (vid : Int),
      wp ∈ inv.widgets → wp.object.dashboardID = dp.remoteID →
      wp.object.visualizationID = some vid →
      inv.visualizations.find? (fun vpp => vpp.remoteID == toString vid) = none →
      ∃ e, writeDashboard inv dp = .error e)
    ∧ (∀ (inv : Inventory) (dp : Dashboard) (ls : List String),
      writeDashboard inv dp = .ok ls →
      ∀ wp ∈ inv.widgets, wp.object.dashboardID = dp.remoteID →
      ∀ vid, wp.object.visualizationID = some vid →
      ∃ vp, inv.visualizations.find? (fun vpp => vpp.remoteID == toString vid) = some vp
        ∧ ("visualization_id = databricks_sql_visualization." ++ vp.resourceName ++ ".id") ∈ ls) := by
  constructor
  · intro inv dp wp vid hmem hdash hvid hfind
    have hf : wp ∈ inv.widgets.filter (fun wp => wp.object.dashboardID == dp.remoteID) :=
      List.mem_filter.mpr ⟨hmem, beq_iff_eq.mpr hdash⟩
    have herr : ∃ e, widgetBlockLines inv dp wp = .error e := by
      refine ⟨.fatal "Couldn't find visualization...", ?_⟩
      simp only [widgetBlockLines, hvid, hfind]
    obtain ⟨e, he⟩ := herr
    obtain ⟨e', he'⟩ := mapME_error_of_mem ⟨wp, hf, e, he⟩
    rw [writeDashboard, he']
    exact ⟨e', rfl⟩
  · intro inv dp ls hok wp hmem hdash vid hvid
    rw [writeDashboard] at hok
    cases hmw : mapME (widgetBlockLines inv dp)
        (inv.widgets.filter (fun wp => wp.object.dashboardID == dp.remoteID)) with
    | error e => rw [hmw] at hok; cases hok
    | ok wls =>
      rw [hmw] at hok
      simp only at hok
      injection hok with hls
      have hf : wp ∈ inv.widgets.filter (fun wp => wp.object.dashboardID == dp.remoteID) :=
        List.mem_filter.mpr ⟨hmem, beq_iff_eq.mpr hdash⟩
      obtain ⟨y, hy, hymem⟩ := mapME_ok_forall hmw wp hf
      cases hfind : inv.visualizations.find? (fun vpp => vpp.remoteID == toString vid) with
      | none =>
        exfalso
        simp only [widgetBlockLines, hvid, hfind] at hy
        cases hy
      | some vp =>
        refine ⟨vp, rfl, ?_⟩
        cases hpm : mapME paramMappingLines wp.object.options.parameterMapping with
        | error e =>
          exfalso
          simp only [widgetBlockLines, hvid, hfind, hpm] at hy
          cases hy
        | ok pmls =>
          simp only [widgetBlockLines, hvid, hfind, hpm] at hy
          injection hy with hy'
          rw [← hls]
          apply List.mem_append_right
          apply List.mem_flatten.mpr
          refine ⟨y, hymem, ?_⟩
          rw [← hy']
          simp

/-- A loaded inventory whose only widget references visualization 9 while the
visualization collection is empty. -/
def missWidget : Widget where
  remoteID := "5"
  resourceName := "d_0"
  object := { emptyApiWidget 5 with dashboardID := "d", visualizationID := some 9 }

def missDash : Dashboard where
  remoteID := "d"
  resourceName := "d"
  object := { id := "d", name := "d", tags := [], widgets := [] }

def missInv : Inventory where
  dashboards := [missDash]
  widgets := [missWidget]
  queries := []
  visualizations := []

/-- Witness for C8: rendering a dashboard whose widget's visualization lookup
misses fails with an error. -/
theorem writeDashboard_refIntegrity_witness :
    ∃ e, writeDashboard missInv missDash = .error e :=
  writeDashboard_refIntegrity.1 missInv missDash missWidget 9
    (List.mem_singleton_self _) rfl rfl rfl

/-! ### Output block ordering (claim C9) -/

/-- Claim C9: a rendered query file is exactly the query block followed by the
blocks of the visualizations whose `QueryID` matches that query, in inventory
order; a rendered dashboard file is exactly the dashboard block followed by
the blocks of the widgets whose `DashboardID` matches, in inventory order; in
both files the parent declaration is the first line, and any line referencing
the parent's identifier sits at a strictly later index, so a referenced block
precedes its referents and no two parents' blocks share a file. -/
theorem render_block_ordering :
    (∀ (inv : Inventory) (qp : Query) (ls : List String),
      writeQuery inv qp = .ok ls →
      ∃ ql vls,
        queryBlockLines qp = .ok ql
        ∧ mapME (visBlockLines qp)
            (inv.visualizations.filter (fun vp => vp.object.queryID == qp.remoteID)) = .ok vls
        ∧ ls = ql ++ vls.flatten
        ∧ ls.head? = some ("resource \"databricks_sql_query\" \"" ++ qp.resourceName ++ "\" \x7b")
        ∧ ∀ i (hi : i < ls.length),
            ls.get ⟨i, hi⟩ = "query_id = databricks_sql_query." ++ qp.resourceName ++ ".id" →
            0 < i)
    ∧ (∀ (inv : Inventory) (dp : Dashboard) (ls : List String),
      writeDashboard inv dp = .ok ls →
      ∃ wls,
        mapME (widgetBlockLines inv dp)
            (inv.widgets.filter (fun wp => wp.object.dashboardID == dp.remoteID)) = .ok wls
        ∧ ls = dashboardBlockLines dp ++ wls.flatten
        ∧ ls.head? = some ("resource \"databricks_sql_dashboard\" \"" ++ dp.resourceName ++ "\" \x7b")
        ∧ ∀ i (hi : i < ls.length),
            ls.get ⟨i, hi⟩ = "dashboard_id = databricks_sql_dashboard." ++ dp.resourceName ++ ".id" →
            0 < i) := by
  constructor
  · intro inv qp ls hok
    rw [writeQuery] at hok
    cases hql : queryBlockLines qp with
    | error e => rw [hql] at hok; cases hok
    | ok ql =>
      rw [hql] at hok
      simp only at hok
      cases hmv : mapME (visBlockLines qp)
          (inv.visualizations.filter (fun vp => vp.object.queryID == qp.remoteID)) with
      | error e => rw [hmv] at hok; cases hok
      | ok vls =>
        rw [hmv] at hok
        simp only at hok
        injection hok with hls
        have hhead : ls.head? =
            some ("resource \"databricks_sql_query\" \"" ++ qp.resourceName ++ "\" \x7b") := by
          cases hpls : mapME renderParam qp.object.options.parameters with
          | error e => rw [queryBlockLines, hpls] at hql; cases hql
          | ok pls =>
            rw [queryBlockLines, hpls] at hql
            simp only at hql
            injection hql with hql'
            rw [← hls, ← hql']
            simp
        refine ⟨ql, vls, rfl, rfl, hls.symm, hhead, ?_⟩
        intro i hi href
        by_contra h0
        have hi0 : i = 0 := by omega
        subst hi0
        have hg0 := get_zero_of_head? hi hhead
        have hne : ("resource \"databricks_sql_query\" \"" ++ qp.resourceName ++ "\" \x7b") ≠
            ("query_id = databricks_sql_query." ++ qp.resourceName ++ ".id") :=
          ne_of_data_head _ _ 'r' 'q'
            (data_head_append _ _ _ (data_head_append _ _ _ (by decide)))
            (data_head_append _ _ _ (data_head_append _ _ _ (by decide)))
            (by decide)
        exact hne (hg0.symm.trans href)
  · intro inv dp ls hok
    rw [writeDashboard] at hok
    cases hmw : mapME (widgetBlockLines inv dp)
        (inv.widgets.filter (fun wp => wp.object.dashboardID == dp.remoteID)) with
    | error e => rw [hmw] at hok; cases hok
    | ok wls =>
      rw [hmw] at hok
      simp only at hok
      injection hok with hls
      have hhead : ls.head? =
          some ("resource \"databricks_sql_dashboard\" \"" ++ dp.resourceName ++ "\" \x7b") := by
        rw [← hls]
        simp [dashboardBlockLines]
      refine ⟨wls, rfl, hls.symm, hhead, ?_⟩
      intro i hi href
      by_contra h0
      have hi0 : i = 0 := by omega
      subst hi0
      have hg0 := get_zero_of_head? hi hhead
      have hne : ("resource \"databricks_sql_dashboard\" \"" ++ dp.resourceName ++ "\" \x7b") ≠
          ("dashboard_id = databricks_sql_dashboard." ++ dp.resourceName ++ ".id") :=
        ne_of_data_head _ _ 'r' 'd'
          (data_head_append _ _ _ (data_head_append _ _ _ (by decide)))
          (data_head_append _ _ _ (data_head_append _ _ _ (by decide)))
          (by decide)
      exact hne (hg0.symm.trans href)

/-- A loaded inventory with one query (`my_query`) and one matching chart
visualization, for exercising the renderer. -/
def c9Vis : Visualization where
  remoteID := "1"
  resourceName := "my_query_chart"
  object := { mkApiVis 1 "chart" with queryID := "q" }

def c9Query : Query where
  remoteID := "q"
  resourceName := "my_query"
  object := { emptyApiQuery "q" with name := "My Query" }

def c9Inv : Inventory where
  dashboards := []
  widgets := []
  queries := [c9Query]
  visualizations := [c9Vis]

/-- The lines `writeQuery` produces on that inventory. -/
def c9Lines : List String := (writeQuery c9Inv c9Query).toOption.getD []

/-- Witness for C9 on the concrete query file: the decomposition holds and
the reference line never sits at index 0. -/
theorem render_block_ordering_witness :
    ∃ ql vls,
      queryBlockLines c9Query = .ok ql
      ∧ mapME (visBlockLines c9Query)
          (c9Inv.visualizations.filter (fun vp => vp.object.queryID == c9Query.remoteID)) = .ok vls
      ∧ c9Lines = ql ++ vls.flatten
      ∧ c9Lines.head? =
          some ("resource \"databricks_sql_query\" \"" ++ c9Query.resourceName ++ "\" \x7b")
      ∧ ∀ i (hi : i < c9Lines.length),
          c9Lines.get ⟨i, hi⟩ =
              "query_id = databricks_sql_query." ++ c9Query.resourceName ++ ".id" →
            0 < i :=
  render_block_ordering.1 c9Inv c9Query c9Lines (by rfl)
